import Mathlib

/-!
Verification of the parallel benchmarking harness in
`demo/int8_resnet50_demo_throughput.py`.

The harness has three run variants:
* `run_within_arenas` — one subprocess per arena, pinned via OMP environment
  variables, synchronized by a `multiprocessing.Barrier(arena_num + 1)` and
  stopped by a shared flag;
* `run_with_async_runner` — one thread per arena sharing an
  `AsyncGraphExecutor`, stopped by a shared flag, no barrier;
* `run_like_mlperf` — one thread per arena pulling work tickets from a bounded
  `Queue`, terminated by one `None` sentinel per worker, no barrier.

All three variants end with the identical aggregation epilogue
(sum counts, sum times, `total_duration /= total_count`,
`latency = total_duration * 1000`,
`throughput = benchmark_time_sec * 1000 / total_count`).

Python floats are modelled as `ℚ`, Python ints as `ℤ` (or `ℕ` on domains the
claims restrict to nonnegative values), and raising as `Except PyError`.
-/

/-- Exceptions the Python code can raise, plus the `ConfigurationError` and
`WorkerFailure` names introduced by the specification's error taxonomy (the
source itself never raises these two; they are present so that claims about
them can be stated). -/
inductive PyError where
  | zeroDivisionError
  | typeError
  | valueError
  | assertionError
  | configurationError
  | workerFailure
  deriving DecidableEq, Repr

/-- Aggregation epilogue of `run_within_arenas` (lines 105–113 of the source):
`for count, duration in zip(res_count, res_time): total_count += count;
total_duration += duration`, then `total_duration /= total_count` (a Python
`ZeroDivisionError` when `total_count == 0`), `latency = total_duration * 1000`,
`throughput = benchmark_time_sec * 1000 / total_count`. -/
def run_within_arenas_aggregate (resCount : List ℕ) (resTime : List ℚ)
    (benchmarkTimeSec : ℚ) : Except PyError (ℚ × ℚ) :=
  let pairs := resCount.zip resTime
  let totalCount : ℕ := pairs.foldl (fun acc cd => acc + cd.1) 0
  let totalDuration : ℚ := pairs.foldl (fun acc cd => acc + cd.2) 0
  if totalCount = 0 then Except.error PyError.zeroDivisionError
  else
    let meanElapsed := totalDuration / (totalCount : ℚ)
    Except.ok (meanElapsed * 1000, benchmarkTimeSec * 1000 / (totalCount : ℚ))

/-- Aggregation epilogue of `run_with_async_runner` (lines 163–171): textually
identical to the epilogue of `run_within_arenas`. -/
def run_with_async_runner_aggregate (resCount : List ℕ) (resTime : List ℚ)
    (benchmarkTimeSec : ℚ) : Except PyError (ℚ × ℚ) :=
  let pairs := resCount.zip resTime
  let totalCount : ℕ := pairs.foldl (fun acc cd => acc + cd.1) 0
  let totalDuration : ℚ := pairs.foldl (fun acc cd => acc + cd.2) 0
  if totalCount = 0 then Except.error PyError.zeroDivisionError
  else
    let meanElapsed := totalDuration / (totalCount : ℚ)
    Except.ok (meanElapsed * 1000, benchmarkTimeSec * 1000 / (totalCount : ℚ))

/-- Aggregation epilogue of `run_like_mlperf` (lines 233–241): textually
identical to the epilogue of `run_within_arenas`. -/
def run_like_mlperf_aggregate (resCount : List ℕ) (resTime : List ℚ)
    (benchmarkTimeSec : ℚ) : Except PyError (ℚ × ℚ) :=
  let pairs := resCount.zip resTime
  let totalCount : ℕ := pairs.foldl (fun acc cd => acc + cd.1) 0
  let totalDuration : ℚ := pairs.foldl (fun acc cd => acc + cd.2) 0
  if totalCount = 0 then Except.error PyError.zeroDivisionError
  else
    let meanElapsed := totalDuration / (totalCount : ℚ)
    Except.ok (meanElapsed * 1000, benchmarkTimeSec * 1000 / (totalCount : ℚ))

/-- Total calls reported by the zipped result slots. -/
def totalCalls (resCount : List ℕ) (resTime : List ℚ) : ℕ :=
  ((resCount.zip resTime).map Prod.fst).sum

/-- Total elapsed seconds reported by the zipped result slots. -/
def totalElapsed (resCount : List ℕ) (resTime : List ℚ) : ℚ :=
  ((resCount.zip resTime).map Prod.snd).sum

/-- Arena-count derivation of `run_within_arenas` (line 80 of the source):
`arena_num = (multiprocessing.cpu_count() - 1) // arena_size + 1`, taken when
`arena_num is None`. On the claims' domain `total_cores ≥ 1`, `arena_size ≥ 1`
Python floor division and subtraction agree with `ℕ` division and truncated
subtraction. -/
def deriveArenaNum (totalCores arenaSize : ℕ) : ℕ :=
  (totalCores - 1) / arenaSize + 1

/-- Python floor division `a // b`: raises `ZeroDivisionError` when `b = 0`,
otherwise floor division (`Int.fdiv`). -/
def pyFloorDiv (a b : ℤ) : Except PyError ℤ :=
  if b = 0 then Except.error PyError.zeroDivisionError
  else Except.ok (Int.fdiv a b)

/-- Entry of `run_within_arenas` (lines 78–81 of the source): the function
performs no validation of its inputs; when `arena_num is None` it immediately
evaluates `arena_num = (multiprocessing.cpu_count() - 1) // arena_size + 1`,
and otherwise uses the given `arena_num` unchanged. -/
def run_within_arenas_arenaNum (totalCores arenaSize : ℤ)
    (arenaNum : Option ℤ) : Except PyError ℤ :=
  match arenaNum with
  | some n => Except.ok n
  | none =>
    match pyFloorDiv (totalCores - 1) arenaSize with
    | Except.error e => Except.error e
    | Except.ok q => Except.ok (q + 1)

/-- Core-range start computed by `arena_wrp` (line 49 of the source):
`idx_start = arena_size * arena_idx`. -/
def arena_wrp_idxStart (arenaSize idx : ℤ) : ℤ := arenaSize * idx

/-- Arena size computed by `arena_wrp` (line 50):
`arena_size = min(multiprocessing.cpu_count() - idx_start, arena_size)`. -/
def arena_wrp_arenaSize (totalCores arenaSize idx : ℤ) : ℤ :=
  min (totalCores - arena_wrp_idxStart arenaSize idx) arenaSize

/-- Core-range end computed by `arena_wrp` (line 51):
`idx_end = idx_start + arena_size` (with the clamped size). -/
def arena_wrp_idxEnd (totalCores arenaSize idx : ℤ) : ℤ :=
  arena_wrp_idxStart arenaSize idx +
    arena_wrp_arenaSize totalCores arenaSize idx

/-- Items placed on the `run_like_mlperf` task queue: the driver enqueues `1`
(a work ticket) during the window and `None` (a sentinel) to terminate a
worker. -/
inductive Ticket where
  | work
  | sentinel
  deriving DecidableEq, Repr

/-- Abstract state of the queue-dispatch variant: the FIFO contents remaining
on `tasks`, and which of the `arena_num` worker threads are still in their
`while True` loop (`mlperf_routine` sets its flag to false exactly when it
dequeues a sentinel and breaks). -/
structure MLPerfState (n : ℕ) where
  queue : List Ticket
  running : Fin n → Bool

/-- Everything the driver of `run_like_mlperf` enqueues (lines 222–228 of the
source): work tickets for the duration of the window, then exactly one `None`
sentinel per worker (`for _ in range(arena_num): tasks.put(None)`). -/
def driverQueue (workItems arenaNum : ℕ) : List Ticket :=
  List.replicate workItems Ticket.work ++
    List.replicate arenaNum Ticket.sentinel

/-- Initial state: the full driver queue, all workers running. -/
def initState (workItems arenaNum : ℕ) : MLPerfState arenaNum :=
  ⟨driverQueue workItems arenaNum, fun _ => true⟩

/-- One dequeue by worker `i` (`qitem = tasks_queue.get()` in
`mlperf_routine`): only a still-running worker dequeues; on a work ticket it
runs one inference and loops, on a sentinel it breaks out of its loop. -/
def dequeueStep {n : ℕ} (s : MLPerfState n) (i : Fin n) :
    Option (MLPerfState n) :=
  match s.queue, s.running i with
  | [], _ => none
  | _ :: _, false => none
  | t :: rest, true =>
    some ⟨rest, fun j =>
      if j = i then (if t = Ticket.sentinel then false else s.running j)
      else s.running j⟩

/-- Reachability by any interleaving of worker dequeues. -/
inductive Reaches {n : ℕ} : MLPerfState n → MLPerfState n → Prop where
  | refl (s : MLPerfState n) : Reaches s s
  | step {s s₂ s₃ : MLPerfState n} (i : Fin n) :
      dequeueStep s i = some s₂ → Reaches s₂ s₃ → Reaches s s₃

/-- Number of workers still running. -/
def runningCount {n : ℕ} (s : MLPerfState n) : ℕ :=
  (Finset.univ.filter (fun j => s.running j = true)).card

/-- Final state of the one-worker, zero-work-ticket run used as the C4
witness. -/
def mlperfFinalState : MLPerfState 1 :=
  ⟨[], fun j => if j = (0 : Fin 1) then false else true⟩

/-- Control-flow events of the harness routines, in source order. -/
inductive Act where
  | setAffinity
  | initAdapter
  | barrierWait
  | recordStart
  | runCall
  | countInc
  | queueGet
  | taskDone
  | recordElapsed
  | writeResult
  | prepInput
  | spawnWorkers
  | driverSleep
  | setStopFlag
  | joinWorkers
  | aggregateResults
  deriving DecidableEq, Repr

/-- Straight-line event sequence of `arena_wrp` (lines 48–72 of the source):
set the OMP affinity environment, initialize the workload (`init_f`), wait on
`init_barrier`, take `start_timestamp = time.time()`, run the timed loop,
take the elapsed time, write the result slots. -/
def arena_wrp_actions : List Act :=
  [Act.setAffinity, Act.initAdapter, Act.barrierWait,
   Act.recordStart, Act.runCall, Act.recordElapsed,
   Act.writeResult]

/-- Driver event sequence of `run_within_arenas` (lines 86–113): spawn the
workers, wait on `init_barrier`, sleep for the window, clear `still_running`,
join the workers, aggregate. -/
def run_within_arenas_driver_actions : List Act :=
  [Act.spawnWorkers, Act.barrierWait, Act.driverSleep,
   Act.setStopFlag, Act.joinWorkers, Act.aggregateResults]

/-- Worker event sequence of `async_runner_routine` (lines 119–133):
initialize for the thread, prepare the input, take the start timestamp, run
the timed loop, take the elapsed time, write the result slots — no barrier
exists in this variant. -/
def async_runner_routine_actions : List Act :=
  [Act.initAdapter, Act.prepInput, Act.recordStart, Act.runCall,
   Act.recordElapsed, Act.writeResult]

/-- Events of the `while True` dequeue loop of `mlperf_routine`
(lines 188–196), per ticket received by this worker: a work ticket is
`get`, `infer`, `tot_count += 1`, `task_done`; the first sentinel is `get`,
`task_done`, `break`. -/
def mlperfLoop : List Ticket → List Act
  | [] => []
  | Ticket.sentinel :: _ => [Act.queueGet, Act.taskDone]
  | Ticket.work :: rest =>
      Act.queueGet :: Act.runCall :: Act.countInc ::
        Act.taskDone :: mlperfLoop rest

/-- Straight-line event sequence of `mlperf_routine` (lines 181–201) given
the tickets this worker dequeues: prepare the input, take
`start_timestamp = time.time()` (before the first dequeue), run the dequeue
loop until the sentinel, take the elapsed time (after the sentinel is
processed), write the result slots — no barrier exists in this variant. -/
def mlperf_routine_trace (ts : List Ticket) : List Act :=
  Act.prepInput :: Act.recordStart ::
    (mlperfLoop ts ++ [Act.recordElapsed, Act.writeResult])

/-- Participant count of the barrier in `run_within_arenas` (line 84):
`multiprocessing.Barrier(arena_num + 1)` — the workers plus the driver. -/
def barrierParties (arenaNum : ℕ) : ℕ := arenaNum + 1

/-- The n+1 participants of a `run_within_arenas` run: participants with
index below `n` are workers running `arena_wrp`, the last is the driver. -/
def withinArenasProgram (n : ℕ) (p : Fin (n + 1)) : List Act :=
  if p.val < n then arena_wrp_actions else run_within_arenas_driver_actions

/-- Projection of an interleaved trace onto one participant's events. -/
def projActs {k : ℕ} (tr : List (Fin k × Act)) (p : Fin k) : List Act :=
  (tr.filter (fun e => e.1 == p)).map Prod.snd

/-- Events that follow the barrier wait in a participant's program order. -/
def afterBarrier (prog : List Act) : List Act :=
  (prog.dropWhile (fun a => !(a == Act.barrierWait))).drop 1

/-- Pre-release half of the concrete one-worker trace used as the C5
witness. -/
def c5t1 : List (Fin 2 × Act) :=
  [((0 : Fin 2), Act.setAffinity), ((0 : Fin 2), Act.initAdapter),
   ((1 : Fin 2), Act.spawnWorkers), ((0 : Fin 2), Act.barrierWait),
   ((1 : Fin 2), Act.barrierWait)]

/-- Post-release half of the concrete one-worker trace used as the C5
witness. -/
def c5t2 : List (Fin 2 × Act) :=
  [((0 : Fin 2), Act.recordStart), ((1 : Fin 2), Act.driverSleep),
   ((0 : Fin 2), Act.runCall), ((1 : Fin 2), Act.setStopFlag),
   ((0 : Fin 2), Act.recordElapsed), ((0 : Fin 2), Act.writeResult),
   ((1 : Fin 2), Act.joinWorkers), ((1 : Fin 2), Act.aggregateResults)]

/-- The full concrete one-worker trace used as the C5 witness. -/
def c5tr : List (Fin 2 × Act) := c5t1 ++ c5t2

/-- Post-join check of `run_within_arenas` (lines 100–103 of the source):
`for p in processes: p.join(); assert p.exitcode == 0; p.terminate()` — any
worker that died with a nonzero exit status makes the `assert` raise
`AssertionError`, so the driver never reaches aggregation. -/
def run_within_arenas_joinCheck (exitcodes : List ℤ) : Except PyError Unit :=
  if exitcodes.all (fun c => c == 0) then Except.ok ()
  else Except.error PyError.assertionError

/-- Post-join epilogue of `run_like_mlperf` (lines 230–241): the driver only
joins each worker thread — threads have no exit status and no check of any
kind is performed — and proceeds directly to aggregation over whatever values
sit in the result slots (a crashed worker leaves its slots at `0`, `0.0`). -/
def run_like_mlperf_epilogue (resCount : List ℕ) (resTime : List ℚ)
    (benchmarkTimeSec : ℚ) : Except PyError (ℚ × ℚ) :=
  run_like_mlperf_aggregate resCount resTime benchmarkTimeSec

/-- Post-join epilogue of `run_with_async_runner` (lines 158–171): same as
the queue variant — join, no failure check, straight to aggregation. -/
def run_with_async_runner_epilogue (resCount : List ℕ) (resTime : List ℚ)
    (benchmarkTimeSec : ℚ) : Except PyError (ℚ × ℚ) :=
  run_with_async_runner_aggregate resCount resTime benchmarkTimeSec

/-- Statements of the thread-variant preludes at which a TypeError can
surface when `arena_num` is `None`. -/
inductive FailSite where
  | queueCtor
  | resCountCtor
  | resTimeCtor
  deriving DecidableEq, Repr

/-- Python `x * k` where `x` may be `None` (an omitted `arena_num`):
multiplying `None` by an int raises `TypeError`. -/
def pyMulInt (x : Option ℤ) (k : ℤ) : Except PyError ℤ :=
  match x with
  | none => Except.error PyError.typeError
  | some v => Except.ok (v * k)

/-- Python `[0] * x` where `x` may be `None`: raises `TypeError` when `x` is
`None`; a nonnegative count replicates, a negative count yields `[]`. -/
def pyListRepeat (x : Option ℤ) : Except PyError (List ℤ) :=
  match x with
  | none => Except.error PyError.typeError
  | some v => Except.ok (List.replicate v.toNat 0)

/-- Prelude of `run_with_async_runner` (lines 137–156 of the source) after
the opaque runner construction and main-thread initialization: build
`res_count = [0] * arena_num`, then `res_time = [0.0] * arena_num`, then
spawn the workers (`for idx in range(arena_num)`); the returned value is the
`arena_num` used to spawn, reached only if no prior statement raised. -/
def run_with_async_runner_start (arenaNum : Option ℤ) :
    Except (PyError × FailSite) ℤ :=
  match pyListRepeat arenaNum with
  | Except.error e => Except.error (e, FailSite.resCountCtor)
  | Except.ok _ =>
    match pyListRepeat arenaNum with
    | Except.error e => Except.error (e, FailSite.resTimeCtor)
    | Except.ok _ => Except.ok (arenaNum.getD 0)

/-- Prelude of `run_like_mlperf` (lines 201–220 of the source) after the
opaque runner construction and main-thread initialization: build
`tasks = Queue(maxsize=arena_num * 4)` first, then
`res_count = [0] * arena_num`, then `res_time = [0.0] * arena_num`, then
spawn the workers; the returned value is the `arena_num` used to spawn,
reached only if no prior statement raised. -/
def run_like_mlperf_start (arenaNum : Option ℤ) :
    Except (PyError × FailSite) ℤ :=
  match pyMulInt arenaNum 4 with
  | Except.error e => Except.error (e, FailSite.queueCtor)
  | Except.ok _ =>
    match pyListRepeat arenaNum with
    | Except.error e => Except.error (e, FailSite.resCountCtor)
    | Except.ok _ =>
      match pyListRepeat arenaNum with
      | Except.error e => Except.error (e, FailSite.resTimeCtor)
      | Except.ok _ => Except.ok (arenaNum.getD 0)

theorem foldl_add_fst (l : List (ℕ × ℚ)) (a : ℕ) :
    l.foldl (fun acc cd => acc + cd.1) a = a + (l.map Prod.fst).sum := by
  induction l generalizing a with
  | nil => simp
  | cons hd tl ih => simp [ih, add_assoc]

theorem foldl_add_snd (l : List (ℕ × ℚ)) (a : ℚ) :
    l.foldl (fun acc cd => acc + cd.2) a = a + (l.map Prod.snd).sum := by
  induction l generalizing a with
  | nil => simp
  | cons hd tl ih => simp [ih, add_assoc]

/-- C1: whenever the summed `calls_completed` is positive, all three run
variants report `latency_ms = (Σ elapsed / Σ calls) * 1000` and
`throughput_ms_per_call = (benchmark_time_sec * 1000) / Σ calls`; the two
figures come from distinct formulas (mean single-call duration vs.
window-normalized rate), witnessed by an input on which they differ. -/
theorem aggregate_formulas (resCount : List ℕ) (resTime : List ℚ)
    (benchmarkTimeSec : ℚ) (h : 0 < totalCalls resCount resTime) :
    run_within_arenas_aggregate resCount resTime benchmarkTimeSec =
      Except.ok
        ((totalElapsed resCount resTime / (totalCalls resCount resTime : ℚ)) * 1000,
         benchmarkTimeSec * 1000 / (totalCalls resCount resTime : ℚ)) ∧
    run_with_async_runner_aggregate resCount resTime benchmarkTimeSec =
      Except.ok
        ((totalElapsed resCount resTime / (totalCalls resCount resTime : ℚ)) * 1000,
         benchmarkTimeSec * 1000 / (totalCalls resCount resTime : ℚ)) ∧
    run_like_mlperf_aggregate resCount resTime benchmarkTimeSec =
      Except.ok
        ((totalElapsed resCount resTime / (totalCalls resCount resTime : ℚ)) * 1000,
         benchmarkTimeSec * 1000 / (totalCalls resCount resTime : ℚ)) ∧
    run_within_arenas_aggregate [2] [1] 10 =
      Except.ok (500, 5000) ∧ (500 : ℚ) ≠ 5000 := by
  have hc : (resCount.zip resTime).foldl (fun acc cd => acc + cd.1) 0 =
      totalCalls resCount resTime := by
    simpa [totalCalls] using foldl_add_fst (resCount.zip resTime) 0
  have hd : (resCount.zip resTime).foldl (fun acc cd => acc + cd.2) 0 =
      totalElapsed resCount resTime := by
    simpa [totalElapsed] using foldl_add_snd (resCount.zip resTime) 0
  have hne : ¬ (totalCalls resCount resTime = 0) := by omega
  refine ⟨?_, ?_, ?_, by norm_num [run_within_arenas_aggregate], by norm_num⟩ <;>
    simp [run_within_arenas_aggregate, run_with_async_runner_aggregate,
      run_like_mlperf_aggregate, hne, hc, hd]

/-- Witness for C1 at the concrete input `res_count = [3, 1]`,
`res_time = [2, 2]`, `benchmark_time_sec = 8`. -/
theorem aggregate_formulas_witness :
    run_within_arenas_aggregate [3, 1] [2, 2] 8 =
      Except.ok
        ((totalElapsed [3, 1] [2, 2] / (totalCalls [3, 1] [2, 2] : ℚ)) * 1000,
         (8 : ℚ) * 1000 / (totalCalls [3, 1] [2, 2] : ℚ)) ∧
    run_with_async_runner_aggregate [3, 1] [2, 2] 8 =
      Except.ok
        ((totalElapsed [3, 1] [2, 2] / (totalCalls [3, 1] [2, 2] : ℚ)) * 1000,
         (8 : ℚ) * 1000 / (totalCalls [3, 1] [2, 2] : ℚ)) ∧
    run_like_mlperf_aggregate [3, 1] [2, 2] 8 =
      Except.ok
        ((totalElapsed [3, 1] [2, 2] / (totalCalls [3, 1] [2, 2] : ℚ)) * 1000,
         (8 : ℚ) * 1000 / (totalCalls [3, 1] [2, 2] : ℚ)) ∧
    run_within_arenas_aggregate [2] [1] 10 =
      Except.ok (500, 5000) ∧ (500 : ℚ) ≠ 5000 :=
  aggregate_formulas [3, 1] [2, 2] 8 (by decide)

/-- The derived arena count brackets `total_cores`:
`arena_size * (m - 1) < total_cores ≤ arena_size * m`; this is the defining
property of `ceil(total_cores / arena_size)`. -/
theorem deriveArenaNum_bounds (totalCores arenaSize : ℕ)
    (htc : 1 ≤ totalCores) (has : 1 ≤ arenaSize) :
    arenaSize * (deriveArenaNum totalCores arenaSize - 1) < totalCores ∧
      totalCores ≤ arenaSize * deriveArenaNum totalCores arenaSize := by
  have hpos : 0 < arenaSize := has
  have hmod := Nat.div_add_mod (totalCores - 1) arenaSize
  have hlt := Nat.mod_lt (totalCores - 1) hpos
  constructor
  · have h1 : arenaSize * ((totalCores - 1) / arenaSize) ≤ totalCores - 1 :=
      Nat.le.intro hmod
    calc arenaSize * (deriveArenaNum totalCores arenaSize - 1)
        = arenaSize * ((totalCores - 1) / arenaSize) := by
          simp [deriveArenaNum]
      _ ≤ totalCores - 1 := h1
      _ < totalCores := by omega
  · have h2 : totalCores - 1 <
        arenaSize * ((totalCores - 1) / arenaSize) + arenaSize := by omega
    calc totalCores = (totalCores - 1) + 1 := by omega
      _ ≤ arenaSize * ((totalCores - 1) / arenaSize) + arenaSize := h2
      _ = arenaSize * deriveArenaNum totalCores arenaSize := by
          simp [deriveArenaNum, Nat.mul_succ]

/-- C2: with `arena_num` unspecified, `(total_cores - 1) // arena_size + 1`
equals `ceil(total_cores / arena_size)`: it equals the standard ceiling
formula `(total_cores + arena_size - 1) / arena_size`, and it is bracketed by
`arena_size * (m - 1) < total_cores ≤ arena_size * m`. -/
theorem deriveArenaNum_eq_ceil (totalCores arenaSize : ℕ)
    (htc : 1 ≤ totalCores) (has : 1 ≤ arenaSize) :
    deriveArenaNum totalCores arenaSize =
      (totalCores + arenaSize - 1) / arenaSize ∧
    arenaSize * (deriveArenaNum totalCores arenaSize - 1) < totalCores ∧
    totalCores ≤ arenaSize * deriveArenaNum totalCores arenaSize := by
  refine ⟨?_, deriveArenaNum_bounds totalCores arenaSize htc has⟩
  have hrw : totalCores + arenaSize - 1 = (totalCores - 1) + arenaSize := by
    omega
  rw [hrw, Nat.add_div_right _ has, deriveArenaNum]

/-- Witness for C2 at `total_cores = 5`, `arena_size = 2`
(derived count `3 = ceil(5/2)`). -/
theorem deriveArenaNum_eq_ceil_witness :
    deriveArenaNum 5 2 = (5 + 2 - 1) / 2 ∧
    2 * (deriveArenaNum 5 2 - 1) < 5 ∧ 5 ≤ 2 * deriveArenaNum 5 2 :=
  deriveArenaNum_eq_ceil 5 2 (by decide) (by decide)

/-- C8: when the summed `calls_completed` is zero, every variant's aggregation
raises `ZeroDivisionError` at `total_duration /= total_count` and therefore
never returns a latency/throughput pair. -/
theorem aggregate_zero_calls (resCount : List ℕ) (resTime : List ℚ)
    (benchmarkTimeSec : ℚ) (h : totalCalls resCount resTime = 0) :
    run_within_arenas_aggregate resCount resTime benchmarkTimeSec =
      Except.error PyError.zeroDivisionError ∧
    run_with_async_runner_aggregate resCount resTime benchmarkTimeSec =
      Except.error PyError.zeroDivisionError ∧
    run_like_mlperf_aggregate resCount resTime benchmarkTimeSec =
      Except.error PyError.zeroDivisionError ∧
    ∀ res : ℚ × ℚ,
      run_within_arenas_aggregate resCount resTime benchmarkTimeSec ≠
        Except.ok res := by
  have hc : (resCount.zip resTime).foldl (fun acc cd => acc + cd.1) 0 = 0 := by
    rw [foldl_add_fst]; simpa [totalCalls] using h
  refine ⟨?_, ?_, ?_, ?_⟩
  · simp [run_within_arenas_aggregate, hc]
  · simp [run_with_async_runner_aggregate, hc]
  · simp [run_like_mlperf_aggregate, hc]
  · intro res
    simp [run_within_arenas_aggregate, hc]

/-- Witness for C8 at `res_count = [0, 0]`, `res_time = [1, 2]`,
`benchmark_time_sec = 7`. -/
theorem aggregate_zero_calls_witness :
    run_within_arenas_aggregate [0, 0] [1, 2] 7 =
      Except.error PyError.zeroDivisionError ∧
    run_with_async_runner_aggregate [0, 0] [1, 2] 7 =
      Except.error PyError.zeroDivisionError ∧
    run_like_mlperf_aggregate [0, 0] [1, 2] 7 =
      Except.error PyError.zeroDivisionError ∧
    ∀ res : ℚ × ℚ,
      run_within_arenas_aggregate [0, 0] [1, 2] 7 ≠ Except.ok res :=
  aggregate_zero_calls [0, 0] [1, 2] 7 (by decide)

/-- C7 counterexample: at `total_cores = 8`, `arena_size = 0` (an input with
`arena_size < 1`) the harness raises `ZeroDivisionError` at the floor
division, not `ConfigurationError` as the claim states. -/
theorem run_within_arenas_not_configurationError :
    run_within_arenas_arenaNum 8 0 none =
      Except.error PyError.zeroDivisionError ∧
    run_within_arenas_arenaNum 8 0 none ≠
      Except.error PyError.configurationError := by
  constructor
  · rfl
  · simp [run_within_arenas_arenaNum, pyFloorDiv]

/-- C7 amended: `run_within_arenas` performs no input validation and can never
fail with `ConfigurationError`. With `arena_num` unspecified, `arena_size = 0`
raises `ZeroDivisionError` at the floor division; a negative `arena_size`
(here `-3` with 8 cores) silently yields a negative derived arena count, and
`total_cores = 0 < 1` silently yields a zero arena count, both proceeding past
the derivation without any error. -/
theorem run_within_arenas_no_validation :
    (∀ totalCores : ℤ, run_within_arenas_arenaNum totalCores 0 none =
      Except.error PyError.zeroDivisionError) ∧
    run_within_arenas_arenaNum 8 (-3) none = Except.ok (-2) ∧
    run_within_arenas_arenaNum 0 2 none = Except.ok 0 ∧
    (∀ (tc asz : ℤ) (an : Option ℤ),
      run_within_arenas_arenaNum tc asz an ≠
        Except.error PyError.configurationError) := by
  refine ⟨?_, rfl, rfl, ?_⟩
  · intro totalCores
    simp [run_within_arenas_arenaNum, pyFloorDiv]
  · intro tc asz an
    cases an with
    | some n => simp [run_within_arenas_arenaNum]
    | none =>
      by_cases h : asz = 0 <;>
        simp [run_within_arenas_arenaNum, pyFloorDiv, h]

/-- C3: for the derived arena count, the per-arena core ranges are pairwise
disjoint (each range ends no later than any later range starts), the sizes sum
to at most `total_cores` (in fact exactly), every arena but the last has the
full requested size, and the last arena is clamped so that its range ends
exactly at `total_cores`. -/
theorem arena_partition_sound (totalCores arenaSize : ℕ)
    (htc : 1 ≤ totalCores) (has : 1 ≤ arenaSize) :
    (∀ i j : ℕ, i < j → j < deriveArenaNum totalCores arenaSize →
      arena_wrp_idxEnd totalCores arenaSize i ≤
        arena_wrp_idxStart arenaSize j) ∧
    (∑ i ∈ Finset.range (deriveArenaNum totalCores arenaSize),
      arena_wrp_arenaSize totalCores arenaSize i) ≤ (totalCores : ℤ) ∧
    (∀ i : ℕ, i + 1 < deriveArenaNum totalCores arenaSize →
      arena_wrp_arenaSize totalCores arenaSize i = (arenaSize : ℤ)) ∧
    arena_wrp_idxEnd totalCores arenaSize
      (deriveArenaNum totalCores arenaSize - 1) = (totalCores : ℤ) := by
  obtain ⟨hb1, hb2⟩ := deriveArenaNum_bounds totalCores arenaSize htc has
  set m := deriveArenaNum totalCores arenaSize with hm
  have hm1 : 1 ≤ m := by rw [hm]; exact Nat.le_add_left 1 _
  have hfull : ∀ i : ℕ, i + 1 < m →
      arena_wrp_arenaSize totalCores arenaSize i = (arenaSize : ℤ) := by
    intro i hi
    have hn : arenaSize * (i + 1) ≤ arenaSize * (m - 1) :=
      Nat.mul_le_mul le_rfl (by omega)
    have hlt : arenaSize * i + arenaSize < totalCores := by
      have h2 := lt_of_le_of_lt hn hb1
      calc arenaSize * i + arenaSize = arenaSize * (i + 1) := by ring
        _ < totalCores := h2
    have hz : (arenaSize : ℤ) * i + arenaSize < totalCores := by
      exact_mod_cast hlt
    unfold arena_wrp_arenaSize arena_wrp_idxStart
    rw [min_eq_right (by linarith)]
  have hq2 : totalCores ≤ arenaSize * (m - 1) + arenaSize := by
    have hsplit : arenaSize * m = arenaSize * (m - 1) + arenaSize := by
      have h1 : m = (m - 1) + 1 := by omega
      calc arenaSize * m = arenaSize * ((m - 1) + 1) := by rw [← h1]
        _ = arenaSize * (m - 1) + arenaSize := by ring
    linarith
  have hz1 : (arenaSize : ℤ) * ((m - 1 : ℕ) : ℤ) < totalCores := by
    exact_mod_cast hb1
  have hz2 : (totalCores : ℤ) ≤ arenaSize * ((m - 1 : ℕ) : ℤ) + arenaSize := by
    exact_mod_cast hq2
  have hlast : arena_wrp_arenaSize totalCores arenaSize ((m - 1 : ℕ) : ℤ) =
      (totalCores : ℤ) - arenaSize * ((m - 1 : ℕ) : ℤ) := by
    unfold arena_wrp_arenaSize arena_wrp_idxStart
    rw [min_eq_left (by linarith)]
  have hlastEnd : arena_wrp_idxEnd totalCores arenaSize ((m - 1 : ℕ) : ℤ) =
      (totalCores : ℤ) := by
    unfold arena_wrp_idxEnd
    rw [hlast]
    unfold arena_wrp_idxStart
    ring
  have hdisj : ∀ i j : ℕ, i < j → j < m →
      arena_wrp_idxEnd totalCores arenaSize i ≤
        arena_wrp_idxStart arenaSize j := by
    intro i j hij hj
    have hji : ((i : ℤ) + 1) ≤ (j : ℤ) := by exact_mod_cast hij
    have hmul : (arenaSize : ℤ) * ((i : ℤ) + 1) ≤ (arenaSize : ℤ) * (j : ℤ) :=
      mul_le_mul_of_nonneg_left hji (by positivity)
    unfold arena_wrp_idxEnd arena_wrp_arenaSize arena_wrp_idxStart
    have hmin := min_le_right ((totalCores : ℤ) - arenaSize * (i : ℤ))
      ((arenaSize : ℤ))
    linarith
  have hsum : (∑ i ∈ Finset.range m,
      arena_wrp_arenaSize totalCores arenaSize i) = (totalCores : ℤ) := by
    have hm' : m = (m - 1) + 1 := by omega
    rw [hm', Finset.sum_range_succ]
    have hstep : ∀ i ∈ Finset.range (m - 1),
        arena_wrp_arenaSize totalCores arenaSize i = (arenaSize : ℤ) := by
      intro i hi
      have hi' : i < m - 1 := Finset.mem_range.mp hi
      exact hfull i (by omega)
    rw [Finset.sum_congr rfl hstep, Finset.sum_const, Finset.card_range, hlast,
      nsmul_eq_mul]
    ring
  have hcast : ((m - 1 : ℕ) : ℤ) = (m : ℤ) - 1 := by
    push_cast [hm1]
    ring
  rw [hcast] at hlastEnd
  exact ⟨hdisj, le_of_eq hsum, hfull, hlastEnd⟩

/-- Witness for C3 at `total_cores = 5`, `arena_size = 2` (three arenas:
two full ones and a final one of size 1 ending at core 5). -/
theorem arena_partition_sound_witness :
    (∀ i j : ℕ, i < j → j < deriveArenaNum 5 2 →
      arena_wrp_idxEnd 5 2 i ≤ arena_wrp_idxStart 2 j) ∧
    (∑ i ∈ Finset.range (deriveArenaNum 5 2),
      arena_wrp_arenaSize 5 2 i) ≤ (5 : ℤ) ∧
    (∀ i : ℕ, i + 1 < deriveArenaNum 5 2 →
      arena_wrp_arenaSize 5 2 i = (2 : ℤ)) ∧
    arena_wrp_idxEnd 5 2 (deriveArenaNum 5 2 - 1) = (5 : ℤ) :=
  arena_partition_sound 5 2 (by decide) (by decide)

theorem runningCount_update {n : ℕ} (r : Fin n → Bool) (i : Fin n)
    (hr : r i = true) :
    (Finset.univ.filter
      (fun j => (if j = i then false else r j) = true)).card =
    (Finset.univ.filter (fun j => r j = true)).card - 1 := by
  have hset : (Finset.univ.filter
      (fun j => (if j = i then false else r j) = true)) =
      (Finset.univ.filter (fun j => r j = true)).erase i := by
    ext j
    by_cases hji : j = i <;> simp [hji]
  rw [hset, Finset.card_erase_of_mem (by simp [hr])]

theorem runningCount_id {n : ℕ} (r : Fin n → Bool) (i : Fin n) :
    (Finset.univ.filter
      (fun j => (if j = i then r j else r j) = true)).card =
    (Finset.univ.filter (fun j => r j = true)).card := by
  congr 1
  ext j
  by_cases hji : j = i <;> simp [hji]

theorem dequeueStep_inv {n : ℕ} {s s₂ : MLPerfState n} {i : Fin n}
    (hstep : dequeueStep s i = some s₂)
    (hinv : s.queue.count Ticket.sentinel = runningCount s) :
    s₂.queue.count Ticket.sentinel = runningCount s₂ := by
  cases hq : s.queue with
  | nil => simp [dequeueStep, hq] at hstep
  | cons t rest =>
    cases hr : s.running i with
    | false => simp [dequeueStep, hq, hr] at hstep
    | true =>
      simp only [dequeueStep, hq, hr] at hstep
      rw [hq] at hinv
      cases t with
      | work =>
        obtain rfl := (Option.some.inj hstep).symm
        show List.count Ticket.sentinel rest =
          (Finset.univ.filter
            (fun j => (if j = i then s.running j else s.running j) = true)).card
        rw [runningCount_id s.running i]
        have hcc : List.count Ticket.sentinel (Ticket.work :: rest) =
            List.count Ticket.sentinel rest := by simp
        rw [hcc] at hinv
        exact hinv
      | sentinel =>
        obtain rfl := (Option.some.inj hstep).symm
        show List.count Ticket.sentinel rest =
          (Finset.univ.filter
            (fun j => (if j = i then false else s.running j) = true)).card
        rw [runningCount_update s.running i hr]
        have hcc : List.count Ticket.sentinel (Ticket.sentinel :: rest) =
            List.count Ticket.sentinel rest + 1 := by simp
        rw [hcc] at hinv
        have hrc : runningCount s =
            (Finset.univ.filter (fun j => s.running j = true)).card := rfl
        rw [hrc] at hinv
        omega

theorem reaches_inv {n : ℕ} {s s₂ : MLPerfState n} (h : Reaches s s₂)
    (hinv : s.queue.count Ticket.sentinel = runningCount s) :
    s₂.queue.count Ticket.sentinel = runningCount s₂ := by
  induction h with
  | refl s => exact hinv
  | step i hstep _ ih => exact ih (dequeueStep_inv hstep hinv)

theorem dequeueStep_queue {n : ℕ} {s s₂ : MLPerfState n} {i : Fin n}
    (hstep : dequeueStep s i = some s₂) : ∃ t, s.queue = t :: s₂.queue := by
  cases hq : s.queue with
  | nil => simp [dequeueStep, hq] at hstep
  | cons t rest =>
    cases hr : s.running i with
    | false => simp [dequeueStep, hq, hr] at hstep
    | true =>
      simp only [dequeueStep, hq, hr] at hstep
      obtain rfl := (Option.some.inj hstep).symm
      exact ⟨t, by simp [hq]⟩

theorem reaches_suffix {n : ℕ} {s s₂ : MLPerfState n} (h : Reaches s s₂) :
    ∃ k, s₂.queue = s.queue.drop k := by
  induction h with
  | refl s => exact ⟨0, rfl⟩
  | step i hstep _ ih =>
    obtain ⟨k, hk⟩ := ih
    obtain ⟨t, ht⟩ := dequeueStep_queue hstep
    exact ⟨k + 1, by rw [hk, ht]; simp [List.drop_drop]⟩

theorem count_sentinel_drop (workItems arenaNum k : ℕ) :
    ((driverQueue workItems arenaNum).drop k).count Ticket.sentinel =
      arenaNum - (k - workItems) := by
  rw [driverQueue, List.drop_append_eq_append_drop, List.count_append,
    List.drop_replicate, List.drop_replicate]
  simp [List.count_replicate]

/-- C4: the `run_like_mlperf` driver enqueues exactly one sentinel per worker,
and in any maximal execution of the queue-dispatch protocol (a reachable state
from which no worker can dequeue) the queue has been drained and every worker
has observed its sentinel and terminated; in particular no still-running
worker is left blocked on a non-empty or empty queue. -/
theorem mlperf_queue_terminates (workItems arenaNum : ℕ)
    (hn : 1 ≤ arenaNum) (s : MLPerfState arenaNum)
    (hreach : Reaches (initState workItems arenaNum) s)
    (hstuck : ∀ i : Fin arenaNum, dequeueStep s i = none) :
    (driverQueue workItems arenaNum).count Ticket.sentinel = arenaNum ∧
    s.queue = [] ∧ ∀ i : Fin arenaNum, s.running i = false := by
  have hcount0 : (driverQueue workItems arenaNum).count Ticket.sentinel =
      arenaNum := by
    simp [driverQueue, List.count_append, List.count_replicate]
  have hinv0 : (initState workItems arenaNum).queue.count Ticket.sentinel =
      runningCount (initState workItems arenaNum) := by
    simp [initState, runningCount, hcount0]
  have hinv := reaches_inv hreach hinv0
  obtain ⟨k, hk⟩ := reaches_suffix hreach
  have hqempty : s.queue = [] := by
    cases hq : s.queue with
    | nil => rfl
    | cons t rest =>
      exfalso
      have hstopped : ∀ i : Fin arenaNum, s.running i = false := by
        intro i
        cases hr : s.running i with
        | false => rfl
        | true =>
          have h := hstuck i
          simp [dequeueStep, hq, hr] at h
      have hrc : runningCount s = 0 := by
        simp [runningCount, hstopped]
      have hcnt : s.queue.count Ticket.sentinel = 0 := by rw [hinv, hrc]
      have hcq := count_sentinel_drop workItems arenaNum k
      have hk2 : s.queue = (driverQueue workItems arenaNum).drop k := hk
      rw [← hk2] at hcq
      have hlen : k < workItems + arenaNum := by
        by_contra hge
        have hnil : (driverQueue workItems arenaNum).drop k = [] := by
          apply List.drop_eq_nil_of_le
          simp [driverQueue]
          omega
        rw [hnil] at hk2
        rw [hq] at hk2
        exact List.cons_ne_nil t rest hk2
      omega
  refine ⟨hcount0, hqempty, ?_⟩
  have hrc0 : runningCount s = 0 := by
    rw [← hinv, hqempty]
    rfl
  intro i
  cases hsr : s.running i with
  | false => rfl
  | true =>
    exfalso
    have hmem : i ∈ Finset.univ.filter (fun j => s.running j = true) := by
      simp [hsr]
    have hpos := Finset.card_pos.mpr ⟨i, hmem⟩
    rw [runningCount] at hrc0
    omega

/-- Witness for C4: one worker, no work tickets; the single dequeue consumes
the sentinel and the stuck state has an empty queue and a terminated worker. -/
theorem mlperf_queue_terminates_witness :
    (driverQueue 0 1).count Ticket.sentinel = 1 ∧
    mlperfFinalState.queue = [] ∧
    ∀ i : Fin 1, mlperfFinalState.running i = false :=
  mlperf_queue_terminates 0 1 (by decide) mlperfFinalState
    (Reaches.step (0 : Fin 1) rfl (Reaches.refl mlperfFinalState))
    (fun _ => rfl)

theorem projActs_append {k : ℕ} (t1 t2 : List (Fin k × Act)) (p : Fin k) :
    projActs (t1 ++ t2) p = projActs t1 p ++ projActs t2 p := by
  simp [projActs, List.filter_append]

theorem mem_projActs {k : ℕ} {tr : List (Fin k × Act)} {p : Fin k}
    {a : Act} : a ∈ projActs tr p ↔ (p, a) ∈ tr := by
  constructor
  · intro ha
    obtain ⟨e, he, hea⟩ := List.mem_map.mp ha
    have hef := List.mem_filter.mp he
    have hp : e.1 = p := by simpa using hef.2
    have hpa : e = (p, a) := by
      obtain ⟨e1, e2⟩ := e
      simp at hp hea
      simp [hp, hea]
    rw [← hpa]
    exact hef.1
  · intro h
    exact List.mem_map.mpr ⟨(p, a), List.mem_filter.mpr ⟨h, by simp⟩, rfl⟩

theorem mem_initAdapter_of_barrier {u v : List Act}
    (h : u ++ v = arena_wrp_actions) (hb : Act.barrierWait ∈ u) :
    Act.initAdapter ∈ u := by
  have hu : u = arena_wrp_actions.take u.length := by
    rw [← h, List.take_left]
  have hlen : u.length ≤ 7 := by
    have hlc := congrArg List.length h
    simp [arena_wrp_actions] at hlc
    omega
  obtain ⟨k, hk⟩ : ∃ k, u.length = k := ⟨u.length, rfl⟩
  rw [hk] at hu hlen
  rw [hu] at hb ⊢
  interval_cases k <;> revert hb <;> decide

/-- C5 counterexample: the claim quantifies over every run variant, but only
`arena_wrp` (the `run_within_arenas` worker) ever waits on a barrier; the
worker routines of `run_with_async_runner` and `run_like_mlperf` contain no
barrier wait at all. -/
theorem no_barrier_in_thread_variants :
    Act.barrierWait ∉ async_runner_routine_actions ∧
    Act.barrierWait ∉ mlperf_routine_trace [Ticket.work, Ticket.sentinel] ∧
    Act.barrierWait ∈ arena_wrp_actions := by
  refine ⟨by decide, ?_, by decide⟩
  decide

/-- C5 amended: in the `run_within_arenas` variant only, the barrier has
`arena_num + 1` parties and each participant's program waits on it exactly
once; in any trace that interleaves the participants' programs
(hypothesis `hproj`) and splits at the barrier release (`hsplit`–`hpost`:
every participant's wait is before the release, everything after a
participant's wait in program order is after the release), every worker's
start timestamp is recorded after the release while every worker's adapter
initialization happened before it — so no initialization cost falls inside
any worker's measured window. -/
theorem within_arenas_barrier_order (n : ℕ)
    (tr t1 t2 : List (Fin (n + 1) × Act))
    (hproj : ∀ p, projActs tr p = withinArenasProgram n p)
    (hsplit : tr = t1 ++ t2)
    (hbar : ∀ p, (p, Act.barrierWait) ∈ t1)
    (hpost : ∀ p a, a ∈ afterBarrier (withinArenasProgram n p) →
      (p, a) ∉ t1) :
    barrierParties n = n + 1 ∧
    (∀ p, (withinArenasProgram n p).count Act.barrierWait = 1) ∧
    (∀ w : Fin (n + 1), w.val < n → (w, Act.recordStart) ∈ t2) ∧
    (∀ q : Fin (n + 1), q.val < n → (q, Act.initAdapter) ∈ t1) := by
  refine ⟨rfl, ?_, ?_, ?_⟩
  · intro p
    by_cases hp : p.val < n <;> simp [withinArenasProgram, hp] <;> decide
  · intro w hw
    have hmem : (w, Act.recordStart) ∈ tr := by
      apply mem_projActs.mp
      rw [hproj w]
      simp [withinArenasProgram, hw, arena_wrp_actions]
    rw [hsplit] at hmem
    rcases List.mem_append.mp hmem with h1 | h2
    · exfalso
      refine hpost w Act.recordStart ?_ h1
      simp only [withinArenasProgram, hw, if_pos]
      decide
    · exact h2
  · intro q hq
    have hsplitproj : projActs t1 q ++ projActs t2 q = arena_wrp_actions := by
      rw [← projActs_append, ← hsplit, hproj q]
      simp [withinArenasProgram, hq]
    have hbmem : Act.barrierWait ∈ projActs t1 q :=
      mem_projActs.mpr (hbar q)
    exact mem_projActs.mp (mem_initAdapter_of_barrier hsplitproj hbmem)

/-- Witness for C5 (amended) on a concrete barrier-respecting interleaving of
one worker and the driver. -/
theorem within_arenas_barrier_order_witness :
    barrierParties 1 = 1 + 1 ∧
    (∀ p : Fin 2, (withinArenasProgram 1 p).count Act.barrierWait = 1) ∧
    (∀ w : Fin 2, w.val < 1 → (w, Act.recordStart) ∈ c5t2) ∧
    (∀ q : Fin 2, q.val < 1 → (q, Act.initAdapter) ∈ c5t1) :=
  within_arenas_barrier_order 1 c5tr c5t1 c5t2 (by decide) rfl (by decide)
    (by decide)

/-- C6 counterexample: in `mlperf_routine` the start timestamp is recorded
strictly before the first dequeue and the elapsed timestamp after the
sentinel has been dequeued and processed — exhibited on a worker that
receives two work tickets and then its sentinel (the full trace is listed,
and `recordStart` occurs at a strictly smaller index than the first
`queueGet`). -/
theorem mlperf_measures_routine_not_dequeues :
    mlperf_routine_trace [Ticket.work, Ticket.work, Ticket.sentinel] =
      [Act.prepInput, Act.recordStart, Act.queueGet, Act.runCall,
       Act.countInc, Act.taskDone, Act.queueGet, Act.runCall,
       Act.countInc, Act.taskDone, Act.queueGet, Act.taskDone,
       Act.recordElapsed, Act.writeResult] ∧
    (mlperf_routine_trace
        [Ticket.work, Ticket.work, Ticket.sentinel]).indexOf
      Act.recordStart <
    (mlperf_routine_trace
        [Ticket.work, Ticket.work, Ticket.sentinel]).indexOf
      Act.queueGet := by
  constructor
  · rfl
  · decide

theorem mem_mlperfLoop (ts : List Ticket) (a : Act)
    (ha : a ∈ mlperfLoop ts) :
    a = Act.queueGet ∨ a = Act.runCall ∨ a = Act.countInc ∨
      a = Act.taskDone := by
  induction ts with
  | nil => simp [mlperfLoop] at ha
  | cons t rest ih =>
    cases t with
    | work =>
      simp only [mlperfLoop, List.mem_cons] at ha
      rcases ha with h | h | h | h | h
      · exact Or.inl h
      · exact Or.inr (Or.inl h)
      · exact Or.inr (Or.inr (Or.inl h))
      · exact Or.inr (Or.inr (Or.inr h))
      · exact ih h
    | sentinel =>
      simp only [mlperfLoop, List.mem_cons] at ha
      rcases ha with h | h | h
      · exact Or.inl h
      · exact Or.inr (Or.inr (Or.inr h))
      · simp at h

/-- C6 amended: for every ticket sequence a worker receives, the
`mlperf_routine` trace is input preparation, then the start timestamp, then
the whole dequeue loop (sentinel processing included), then the elapsed
timestamp: the recorded interval spans from routine entry — before the first
dequeue — to after the sentinel is processed, not from the first dequeue to
the last completed call. -/
theorem mlperf_elapsed_spans_routine (ts : List Ticket) :
    mlperf_routine_trace ts =
      Act.prepInput :: Act.recordStart ::
        (mlperfLoop ts ++ [Act.recordElapsed, Act.writeResult]) ∧
    Act.recordStart ∉ mlperfLoop ts ∧
    Act.recordElapsed ∉ mlperfLoop ts := by
  refine ⟨rfl, ?_, ?_⟩
  · intro hmem
    rcases mem_mlperfLoop ts Act.recordStart hmem with h | h | h | h <;>
      exact absurd h (by decide)
  · intro hmem
    rcases mem_mlperfLoop ts Act.recordElapsed hmem with h | h | h | h <;>
      exact absurd h (by decide)

/-- C9 counterexample: in the queue-dispatch variant a crashed worker (its
result slots left at `0`, `0.0`, as after a thread raised) does not stop the
driver: with one healthy worker having completed 5 calls in 2 s over a 10 s
window the run still emits the RunResult `(400, 2000)` instead of failing. -/
theorem mlperf_ignores_worker_failure :
    run_like_mlperf_epilogue [5, 0] [2, 0] 10 = Except.ok (400, 2000) := by
  norm_num [run_like_mlperf_epilogue, run_like_mlperf_aggregate]

/-- C9 amended: only `run_within_arenas` detects worker failure — any
nonzero exit code makes its post-join `assert` raise (`AssertionError`, the
code's stand-in for `WorkerFailure`) before aggregation; the two thread-based
variants perform no post-join check and aggregate a crashed worker's
untouched slots into an ordinary RunResult. -/
theorem worker_failure_detection (exitcodes : List ℤ)
    (h : ∃ c ∈ exitcodes, c ≠ 0) :
    run_within_arenas_joinCheck exitcodes =
      Except.error PyError.assertionError ∧
    run_like_mlperf_epilogue [7, 0] [3, 0] 14 =
      Except.ok (3000 / 7, 2000) ∧
    run_with_async_runner_epilogue [7, 0] [3, 0] 14 =
      Except.ok (3000 / 7, 2000) := by
  obtain ⟨c, hc, hne⟩ := h
  have hall : ¬ (exitcodes.all (fun c => c == 0) = true) := by
    rw [List.all_eq_true]
    push_neg
    exact ⟨c, hc, by simpa using hne⟩
  refine ⟨?_, ?_, ?_⟩
  · unfold run_within_arenas_joinCheck
    rw [if_neg hall]
  · norm_num [run_like_mlperf_epilogue, run_like_mlperf_aggregate]
  · norm_num [run_with_async_runner_epilogue, run_with_async_runner_aggregate]

/-- Witness for C9 (amended) at exit codes `[0, 3]`. -/
theorem worker_failure_detection_witness :
    run_within_arenas_joinCheck [0, 3] =
      Except.error PyError.assertionError ∧
    run_like_mlperf_epilogue [7, 0] [3, 0] 14 =
      Except.ok (3000 / 7, 2000) ∧
    run_with_async_runner_epilogue [7, 0] [3, 0] 14 =
      Except.ok (3000 / 7, 2000) :=
  worker_failure_detection [0, 3] ⟨3, by decide, by decide⟩

/-- C10 counterexample: `run_like_mlperf` called with `arena_num = None` does
raise `TypeError` before any worker starts, but at the
`Queue(maxsize=arena_num * 4)` construction — it never reaches the
`[0] * arena_num` result-list line the claim names. -/
theorem mlperf_none_raises_at_queue :
    run_like_mlperf_start none =
      Except.error (PyError.typeError, FailSite.queueCtor) ∧
    run_like_mlperf_start none ≠
      Except.error (PyError.typeError, FailSite.resCountCtor) := by
  constructor
  · rfl
  · simp [run_like_mlperf_start, pyMulInt]

/-- C10 amended: omitting `arena_num` makes both thread-based entry points
raise `TypeError` before any worker is started — `run_with_async_runner` at
the `[0] * arena_num` result-list construction, `run_like_mlperf` one line
earlier at `Queue(maxsize=arena_num * 4)` — while any explicit integer
`arena_num` reaches the spawn loop; so callers of these two entry points
must always supply an explicit `arena_num`. -/
theorem none_arenaNum_typeError :
    run_with_async_runner_start none =
      Except.error (PyError.typeError, FailSite.resCountCtor) ∧
    run_like_mlperf_start none =
      Except.error (PyError.typeError, FailSite.queueCtor) ∧
    (∀ k : ℤ, run_with_async_runner_start (some k) = Except.ok k) ∧
    (∀ k : ℤ, run_like_mlperf_start (some k) = Except.ok k) :=
  ⟨rfl, rfl, fun _ => rfl, fun _ => rfl⟩
